import Mathlib

/-!
Verification development for the IDF 3.0 checking tool
(`emnObj.py` / `idfCheckingTool.py`).

The Python source is shallowly embedded:

* text lines are `List Char`; Python substring containment (`in`),
  `str.split()`, `str.split(c)` and `str.strip()` are embedded as
  executable functions on character lists;
* Python `float(...)` is embedded as `parseFloat : List Char → Option ℚ`
  over exact rationals (ordinary decimal/exponent literals; the exotic
  `inf`/`nan`/underscore forms never appear in the inputs at issue);
* code that can raise (`IndexError` on `[0]`/`[1]`, `ValueError` from
  `float`) is embedded in `Except Err`;
* diagnostic strings are embedded as a structured `Msg` carrying the
  numeric/textual payload that the Python `%`-formatting interpolates;
* the trigonometric arc-tangent check uses `ℝ`: `math.atan2 y x` is the
  argument of the complex number `x + y*I`, `math.fmod` is embedded with
  truncated division, `math.isclose` by its documented formula.
-/

/- Rational arithmetic in Batteries is marked irreducible, which blocks
kernel evaluation of the embedded decimal parsing on concrete inputs;
re-open it for this file so that concrete runs reduce by `decide`. -/
set_option allowUnsafeReducibility true

attribute [local semireducible] Rat.mul Rat.add Rat.sub Rat.div Rat.inv Rat.neg

/-- Decidable equality for `Except`, used to evaluate the embedded
fallible code on concrete inputs. -/
instance {ε α : Type} [DecidableEq ε] [DecidableEq α] : DecidableEq (Except ε α) :=
  fun x y =>
    match x, y with
    | .ok a, .ok b =>
      if h : a = b then .isTrue (by rw [h])
      else .isFalse (fun hc => by cases hc; exact h rfl)
    | .ok _, .error _ => .isFalse (fun hc => by cases hc)
    | .error _, .ok _ => .isFalse (fun hc => by cases hc)
    | .error e, .error f =>
      if h : e = f then .isTrue (by rw [h])
      else .isFalse (fun hc => by cases hc; exact h rfl)

namespace IDF

/-- A text line of the input file, as a list of characters. -/
abbrev Line := List Char

/-- Whitespace characters recognised by Python `str.split()` / `str.strip()`. -/
def isSpace (c : Char) : Bool :=
  c = ' ' || c = '\t' || c = '\n' || c = '\r' || c = '\x0b' || c = '\x0c'

/-- Does `n` occur at the head of `h`?  Helper for `occurs`. -/
def leadsWith : List Char → List Char → Bool
  | [], _ => true
  | _ :: _, [] => false
  | a :: as, b :: bs => a = b && leadsWith as bs

/-- Python substring containment `n in h`. -/
def occurs (n : List Char) : List Char → Bool
  | [] => leadsWith n []
  | c :: cs => leadsWith n (c :: cs) || occurs n cs

/-- Python `str.strip()`: drop leading and trailing whitespace. -/
def stripWs (l : List Char) : List Char :=
  ((l.dropWhile isSpace).reverse.dropWhile isSpace).reverse

/-- Helper for `splitWs`: current word is accumulated in reverse in `cur`. -/
def splitWsAux : List Char → List Char → List (List Char)
  | [], cur => if cur = [] then [] else [cur.reverse]
  | c :: cs, cur =>
    if isSpace c then
      if cur = [] then splitWsAux cs []
      else cur.reverse :: splitWsAux cs []
    else splitWsAux cs (c :: cur)

/-- Python `str.split()` with no argument: split on whitespace runs,
no empty fields. -/
def splitWs (l : List Char) : List (List Char) := splitWsAux l []

/-- Decimal digit test. -/
def isDigit (c : Char) : Bool := '0' ≤ c && c ≤ '9'

/-- Numeric value of a digit string (most significant first). -/
def digitsVal (l : List Char) : ℕ :=
  l.foldl (fun a c => 10 * a + (c.toNat - 48)) 0

/-- Split a greedy run of digits off the front. -/
def takeDigits (l : List Char) : List Char × List Char := l.span isDigit

/-- Python `float(token)` on a stripped token: optional sign, decimal
mantissa (at least one digit), optional exponent part.  Returns the exact
rational value, or `none` when CPython would raise `ValueError`.
The `inf`/`nan`/underscore literal forms are not modelled; they do not
occur in the record fields this development evaluates. -/
def parseFloatCore (l : List Char) : Option ℚ :=
  let sgnRest : ℚ × List Char :=
    match l with
    | '+' :: r => (1, r)
    | '-' :: r => (-1, r)
    | r => (1, r)
  let sgn := sgnRest.1
  let l1 := sgnRest.2
  let ipRest := takeDigits l1
  let ip := ipRest.1
  let l2 := ipRest.2
  let fpRest : Option (List Char) × List Char :=
    match l2 with
    | '.' :: r =>
      let d := takeDigits r
      (some d.1, d.2)
    | r => (none, r)
  let fp := fpRest.1
  let l3 := fpRest.2
  if ip = [] ∧ (fp = none ∨ fp = some []) then none
  else
    let mant : ℚ :=
      sgn * (digitsVal ip +
        (match fp with
         | some d => (digitsVal d : ℚ) / 10 ^ d.length
         | none => 0))
    match l3 with
    | [] => some mant
    | e :: r =>
      if e = 'e' ∨ e = 'E' then
        let esRest : ℤ × List Char :=
          match r with
          | '+' :: t => (1, t)
          | '-' :: t => (-1, t)
          | t => (1, t)
        let edRest := takeDigits esRest.2
        if edRest.1 = [] ∨ edRest.2 ≠ [] then none
        else some (mant * (10 : ℚ) ^ (esRest.1 * digitsVal edRest.1))
      else none

/-- Python `float(s)`: surrounding whitespace is ignored. -/
def parseFloat (l : List Char) : Option ℚ := parseFloatCore (stripWs l)

/-! ### Marker constants (`emnObj.py` lines 17-45)

`ROUTE_KEEPOUT_START` reproduces the misspelling present in the source:
the constant holds `".ROUTE_KEEOUT"` although the IDF 3.0 marker (and the
matching end constant) spell `KEEPOUT`. -/

def BOARD_START : Line := ".BOARD_OUTLINE".toList
def BOARD_END : Line := ".END_BOARD_OUTLINE".toList
def DRILL_START : Line := ".DRILLED_HOLES".toList
def DRILL_END : Line := ".END_DRILLED_HOLES".toList
def HEADER_START : Line := ".HEADER".toList
def HEADER_END : Line := ".END_HEADER".toList
def OTHER_START : Line := ".OTHER_OUTLINE".toList
def OTHER_END : Line := ".END_OTHER_OUTLINE".toList
def PLACE_KEEPOUT_START : Line := ".PLACE_KEEPOUT".toList
def PLACE_KEEPOUT_END : Line := ".END_PLACE_KEEPOUT".toList
def PLACE_OUTLINE_START : Line := ".PLACE_OUTLINE".toList
def PLACE_OUTLINE_END : Line := ".END_PLACE_OUTLINE".toList
def PLACEMENT_START : Line := ".PLACEMENT".toList
def PLACEMENT_END : Line := ".END_PLACEMENT".toList
def ROUTE_START : Line := ".ROUTE_OUTLINE".toList
def ROUTE_END : Line := ".END_ROUTE_OUTLINE".toList
def ROUTE_KEEPOUT_START : Line := ".ROUTE_KEEOUT".toList
def ROUTE_KEEPOUT_END : Line := ".END_ROUTE_KEEPOUT".toList
def VIA_KEEPOUT_START : Line := ".VIA_KEEPOUT".toList
def VIA_KEEPOUT_END : Line := ".END_VIA_KEEPOUT".toList

def SHAPE_STARTS : List Line :=
  [BOARD_START, OTHER_START, PLACE_KEEPOUT_START, PLACE_OUTLINE_START,
   ROUTE_START, ROUTE_KEEPOUT_START, VIA_KEEPOUT_START]

def SHAPE_ENDS : List Line :=
  [BOARD_END, OTHER_END, PLACE_KEEPOUT_END, PLACE_OUTLINE_END,
   ROUTE_END, ROUTE_KEEPOUT_END, VIA_KEEPOUT_END]

/-! ### Data model -/

/-- One coordinate record `[cutout, x, y, arc]` (`shape.getCoords`). -/
structure Vertex where
  loop : ℚ
  x : ℚ
  y : ℚ
  sweep : ℚ
deriving DecidableEq, Repr, Inhabited

/-- A `shape` object: section type token, the grouped coordinate lists
(`coordinates`; entry 0 is the outline, the rest are cutouts), height. -/
structure Shape where
  sType : Line
  coordinates : List (List Vertex)
  height : ℚ
deriving DecidableEq, Repr, Inhabited

/-- `shape.outline` (`self.coordinates[0]`; `getCoords` always returns a
nonempty list, so the Python index cannot fail). -/
def Shape.outline (s : Shape) : List Vertex := s.coordinates.headI

/-- `shape.cutouts` (`self.coordinates[1:]`). -/
def Shape.cutouts (s : Shape) : List (List Vertex) := s.coordinates.tail

/-- A `part` object. -/
structure Part where
  name : Line
  refDes : Line
  x : ℚ
  y : ℚ
  rot : ℚ
  side : Line
deriving DecidableEq, Repr, Inhabited

/-- A `drill` object. -/
structure Drill where
  diameter : ℚ
  x : ℚ
  y : ℚ
deriving DecidableEq, Repr, Inhabited

/-- The payload `shape.__str__` interpolates when the outline is
nonempty: type token and the first outline coordinate.  Used only in
statements about shapes whose outline is known nonempty; the faithful,
fallible embedding of `__str__` is `shapeStr` below. -/
def shapeId (s : Shape) : Line × ℚ × ℚ :=
  (s.sType, s.outline.headI.x, s.outline.headI.y)

/-- A diagnostic message, carrying the data the Python string
interpolates instead of the formatted text. -/
inductive Msg where
  | noUnits
  | tooShort (sid : Line × ℚ × ℚ)
  | heightSummary
  | negShape (sid : Line × ℚ × ℚ)
  | negPart (name refDes : Line) (x y : ℚ)
  | negDrill (diameter x y : ℚ)
  | notClosed (sid : Line × ℚ × ℚ)
  | cutoutNotClosed (sid : Line × ℚ × ℚ) (cx cy : ℚ)
  | refDesR (name refDes : Line) (x y : ℚ)
  | roundCutout (sid : Line × ℚ × ℚ) (cx cy : ℚ)
  | noShapes
  | arcCusp (x y : ℚ)
  | invalidChars (name refDes : Line)
  | circuitWorks
  | notInLib (name : Line)
deriving DecidableEq, Repr

/-- Python exceptions that can escape the embedded code:
`IndexError` from subscripting an empty split/list, `ValueError`
from `float`. -/
inductive Err where
  | indexErr
  | valueErr
deriving DecidableEq, Repr

/-- `shape.__str__`: reads `self.outline[0]` unguarded, so it raises
`IndexError` on an empty outline — a state the builder reaches when a
section has no 4-field lines, or when its first record has a nonzero
loop index.  On success it yields the `shapeId` payload. -/
def shapeStr (s : Shape) : Except Err (Line × ℚ × ℚ) :=
  match s.outline with
  | [] => .error .indexErr
  | v :: _ => .ok (s.sType, v.x, v.y)

/-- The board-level aggregate built from one file (`emnObj`). -/
structure Board where
  fileName : String
  parts : List Part
  shapes : List Shape
  errors : List Msg
  units : Line
  drills : List Drill
deriving DecidableEq, Repr

/-! ### Record decoder and model builder (`shape`, `part`, `drill`) -/

/-- Parse one 4-field coordinate line into a `Vertex`
(`shape.getCoords`, the four `float(...)` calls). -/
def parseVertex (fs : List (List Char)) : Except Err Vertex := do
  let c ← (parseFloat (fs.getD 0 [])).elim (.error .valueErr) .ok
  let x ← (parseFloat (fs.getD 1 [])).elim (.error .valueErr) .ok
  let y ← (parseFloat (fs.getD 2 [])).elim (.error .valueErr) .ok
  let a ← (parseFloat (fs.getD 3 [])).elim (.error .valueErr) .ok
  .ok ⟨c, x, y, a⟩

/-- The run-grouping loop of `shape.getCoords`: `idx` is `cutoutIndex`,
`cur` the subshape being accumulated.  On a change of loop index the
current subshape (possibly empty, when the very first record has a
nonzero index) is emitted and a new one starts; the final subshape is
emitted unconditionally. -/
def groupRuns (idx : ℚ) (cur : List Vertex) : List Vertex → List (List Vertex)
  | [] => [cur]
  | v :: vs =>
    if v.loop = idx then groupRuns idx (cur ++ [v]) vs
    else cur :: groupRuns v.loop [v] vs

/-- `shape.getCoords`: keep exactly the 4-whitespace-field lines (the
IDF 3.0 heuristic), parse each field as a float, and group into
contiguous runs of equal loop index. -/
def getCoords (sData : List Line) : Except Err (List (List Vertex)) := do
  let shapeStrs := (sData.filter (fun l => (splitWs l).length = 4)).map splitWs
  let coords ← shapeStrs.mapM parseVertex
  .ok (groupRuns 0 [] coords)

/-- `shape.getHeight`: `float(sData[1])` for a board outline, the second
whitespace field of `sData[1]` for other/place outlines, 0 otherwise.
A missing line or field is an `IndexError`; a failed parse a
`ValueError`. -/
def getHeight (sType : Line) (sData : List Line) : Except Err ℚ :=
  if sType = BOARD_START then
    match sData.get? 1 with
    | none => .error .indexErr
    | some l => (parseFloat l).elim (.error .valueErr) .ok
  else if sType = OTHER_START ∨ sType = PLACE_OUTLINE_START then
    match sData.get? 1 with
    | none => .error .indexErr
    | some l =>
      match (splitWs l).get? 1 with
      | none => .error .indexErr
      | some f => (parseFloat f).elim (.error .valueErr) .ok
  else .ok 0

/-- `shape.__init__` from the collected section lines: the type token is
the first whitespace field of the first line (`sData[0].split()[0]`,
raising `IndexError` when there are no lines or the first line is
blank), then coordinates, then height. -/
def mkShape (sData : List Line) : Except Err Shape := do
  let l0 ← (sData.get? 0).elim (.error Err.indexErr) .ok
  let t0 ← ((splitWs l0).get? 0).elim (.error Err.indexErr) .ok
  let coords ← getCoords sData
  let h ← getHeight t0 sData
  .ok ⟨t0, coords, h⟩

/-- `part.getNames`: quoted form takes the text between the first pair
of double quotes and the stripped text after the last quote; the bare
form takes the first and last whitespace fields (raising `IndexError`
on a blank line). -/
def getNames (l0 : Line) : Except Err (Line × Line) :=
  if occurs ['"'] l0 then
    let ps := l0.splitOn '"'
    match ps.get? 1, ps.getLast? with
    | some pn, some rn => .ok (pn, stripWs rn)
    | _, _ => .error .indexErr
  else
    match (splitWs l0).get? 0, (splitWs l0).getLast? with
    | some pn, some rn => .ok (pn, rn)
    | _, _ => .error .indexErr

/-- `part.__init__` from its two record lines: position fields 0, 1 and
rotation field 3 of the second line, side field 4, then the names. -/
def mkPart (l0 l1 : Line) : Except Err Part := do
  let fs := splitWs l1
  let xf ← (fs.get? 0).elim (.error Err.indexErr) .ok
  let x ← (parseFloat xf).elim (.error Err.valueErr) .ok
  let yf ← (fs.get? 1).elim (.error Err.indexErr) .ok
  let y ← (parseFloat yf).elim (.error Err.valueErr) .ok
  let rf ← (fs.get? 3).elim (.error Err.indexErr) .ok
  let r ← (parseFloat rf).elim (.error Err.valueErr) .ok
  let sd ← (fs.get? 4).elim (.error Err.indexErr) .ok
  let nm ← getNames l0
  .ok ⟨nm.1, nm.2, x, y, r, sd⟩

/-- `drill.__init__`: whitespace fields 0, 1, 2 of the line are
diameter, x, y. -/
def mkDrill (l : Line) : Except Err Drill := do
  let fs := splitWs l
  let df ← (fs.get? 0).elim (.error Err.indexErr) .ok
  let d ← (parseFloat df).elim (.error Err.valueErr) .ok
  let xf ← (fs.get? 1).elim (.error Err.indexErr) .ok
  let x ← (parseFloat xf).elim (.error Err.valueErr) .ok
  let yf ← (fs.get? 2).elim (.error Err.indexErr) .ok
  let y ← (parseFloat yf).elim (.error Err.valueErr) .ok
  .ok ⟨d, x, y⟩

/-! ### Section scanner (`emnObj.getParts/getUnits/getShapes/getDrills`) -/

/-- The line-pairing loop of `emnObj.getParts`.  `inR` is `partsRange`,
`first` is `firstLine`, `pend` the saved first line of the pair.  Per
line: the end marker clears `partsRange` first, then a line inside the
range is paired, then the start marker sets `partsRange` (so neither
marker line is treated as data).  `first`/`pend` persist across spans
exactly as in the source. -/
def getPartsLines (inR first : Bool) (pend : Line) : List Line → List (Line × Line)
  | [] => []
  | l :: ls =>
    let inR1 := if occurs PLACEMENT_END l then false else inR
    let step : List (Line × Line) × Bool × Line :=
      if inR1 then
        if first then ([], false, l)
        else ([(pend, l)], true, pend)
      else ([], first, pend)
    let inR2 := inR1 || occurs PLACEMENT_START l
    step.1 ++ getPartsLines inR2 step.2.1 step.2.2 ls

/-- `emnObj.getParts`: pair the placement lines, then build each part
(a constructor exception aborts the whole build). -/
def getParts (lines : List Line) : Except Err (List Part) :=
  (getPartsLines false true [] lines).mapM fun p => mkPart p.1 p.2

/-- The scan of `emnObj.getUnits` once at least one line exists:
`"THOU"`/`"MM"` anywhere in a line win (in that order); reaching a line
carrying the header end marker records the missing-units diagnostic;
falling off the end leaves the `"ERROR"` value set by the last
non-matching line. -/
def getUnitsAux : List Line → Line × List Msg
  | [] => ("ERROR".toList, [])
  | l :: ls =>
    if occurs "THOU".toList l then ("THOU".toList, [])
    else if occurs "MM".toList l then ("MM".toList, [])
    else if occurs HEADER_END l then ("ERROR".toList, [Msg.noUnits])
    else getUnitsAux ls

/-- `emnObj.getUnits`, run during `__init__` after `errors` is created:
returns the units string together with the diagnostics it appends.  On
an empty file the initial empty string survives. -/
def getUnits (lines : List Line) : Line × List Msg :=
  if lines = [] then ([], []) else getUnitsAux lines

/-- The scanning loop of `emnObj.getShapes`, yielding the raw line
groups handed to the `shape` constructor.  A line carrying any start
marker sets `coordRange` before the line is collected, so marker lines
are part of the group.  For each end marker found on a line the current
group is emitted and reset, so a line carrying several end markers
emits extra empty groups, and an end marker seen outside a span emits
an empty group.  An unterminated span is dropped. -/
def getShapeGroups (cur : List Line) (inSpan : Bool) : List Line → List (List Line)
  | [] => []
  | l :: ls =>
    let inSpan1 := inSpan || SHAPE_STARTS.any (fun k => occurs k l)
    let cur1 := if inSpan1 then cur ++ [l] else cur
    let m := (SHAPE_ENDS.filter (fun k => occurs k l)).length
    if m = 0 then getShapeGroups cur1 inSpan1 ls
    else (cur1 :: List.replicate (m - 1) []) ++ getShapeGroups [] false ls

/-- `emnObj.getShapes`: build a `shape` from each scanned group. -/
def getShapes (lines : List Line) : Except Err (List Shape) :=
  (getShapeGroups [] false lines).mapM mkShape

/-- The collection loop of `emnObj.getDrills` (end marker clears the
range before the line is collected, start marker sets it after). -/
def getDrillLines (inR : Bool) : List Line → List Line
  | [] => []
  | l :: ls =>
    let inR1 := if occurs DRILL_END l then false else inR
    let keep := if inR1 then [l] else []
    let inR2 := inR1 || occurs DRILL_START l
    keep ++ getDrillLines inR2 ls

/-- `emnObj.getDrills`. -/
def getDrills (lines : List Line) : Except Err (List Drill) :=
  (getDrillLines false lines).mapM mkDrill

/-- `emnObj.__init__`: parts, then shapes, then the empty error list,
then units (which may append its diagnostic), then drills.  The first
constructor exception propagates, in this order. -/
def buildBoard (lines : List Line) (fname : String) : Except Err Board := do
  let parts ← getParts lines
  let shapes ← getShapes lines
  let u := getUnits lines
  let drills ← getDrills lines
  .ok ⟨fname, parts, shapes, u.2, u.1, drills⟩

/-- The construction loop of `getEmnsInFolder` in `idfCheckingTool.py`:
one `emnObj` per discovered file, built inside a single unguarded loop,
so the first constructor exception propagates out of the whole batch
and no board list is returned at all. -/
def buildAll : List (String × List Line) → Except Err (List Board)
  | [] => .ok []
  | (n, ls) :: rest => do
    let b ← buildBoard ls n
    let bs ← buildAll rest
    .ok (b :: bs)

/-! ### Validation engine (`emnObj.check*`) -/

/-- The flag condition of `checkHeightErrors` for one shape: a place
outline that is at most 0.026 in MM units or at most 1 in THOU units. -/
def heightBad (units : Line) (s : Shape) : Bool :=
  (s.sType = PLACE_OUTLINE_START && units = "MM".toList
    && decide (s.height ≤ 26 / 1000))
  || (s.sType = PLACE_OUTLINE_START && units = "THOU".toList
    && decide (s.height ≤ 1))

/-- The loop of `emnObj.checkHeightErrors`: one message per flagged
shape (its text built by `shape.__str__`, which raises on an empty
outline and aborts the run there), and the summary message once after
the loop when `heightFlag` was ever set.  As everywhere in this
development, messages appended before a raise are discarded together
with the aborted run. -/
def checkHeightAux (units : Line) : List Shape → Bool → Except Err (List Msg)
  | [], flag => .ok (if flag then [Msg.heightSummary] else [])
  | s :: ss, flag =>
    if heightBad units s then do
      let sid ← shapeStr s
      let rest ← checkHeightAux units ss (flag || heightBad units s)
      .ok (Msg.tooShort sid :: rest)
    else checkHeightAux units ss (flag || heightBad units s)

/-- `emnObj.checkHeightErrors`. -/
def checkHeightErrors (units : Line) (shapes : List Shape) : Except Err (List Msg) :=
  checkHeightAux units shapes false

/-- `negShape` of `emnObj.checkNegErrors`: some vertex of some subshape
has a negative coordinate. -/
def negShape (s : Shape) : Bool :=
  s.coordinates.any fun sub => sub.any fun v => v.x < 0 || v.y < 0

/-- The shape loop of `emnObj.checkNegErrors`: one message, built with
`shape.__str__`, per offending shape. -/
def negShapeAux : List Shape → Except Err (List Msg)
  | [] => .ok []
  | s :: ss =>
    if negShape s then do
      let sid ← shapeStr s
      let rest ← negShapeAux ss
      .ok (Msg.negShape sid :: rest)
    else negShapeAux ss

/-- `emnObj.checkNegErrors`: offending shapes, then offending parts,
then offending drills (the part and drill message payloads never
raise). -/
def checkNegErrors (b : Board) : Except Err (List Msg) := do
  let sm ← negShapeAux b.shapes
  .ok (sm
    ++ ((b.parts.filter fun p => p.x < 0 || p.y < 0).map
      fun p => Msg.negPart p.name p.refDes p.x p.y)
    ++ ((b.drills.filter fun d => d.x < 0 || d.y < 0).map
      fun d => Msg.negDrill d.diameter d.x d.y))

/-- The per-subshape body of `emnObj.checkClosedErrors`: with at least
3 vertices, compare the `[loop, x, y]` slices of the first and last
vertex and report an open outline (first loop index 0) or an open
cutout (with its start coordinates); with exactly 2 vertices, report
unless the second sweep angle is exactly 360.  Either message embeds
`currentShape.__str__()`, which raises on an empty outline. -/
def closedSub (sh : Shape) (s : List Vertex) : Except Err (List Msg) :=
  if 3 ≤ s.length ∧
      ¬((s.headI.loop, s.headI.x, s.headI.y)
        = ((s.getLastD default).loop, (s.getLastD default).x, (s.getLastD default).y)) then do
    let sid ← shapeStr sh
    .ok (if s.headI.loop = 0 then [Msg.notClosed sid]
      else [Msg.cutoutNotClosed sid s.headI.x s.headI.y])
  else if s.length = 2 ∧ (s.getD 1 default).sweep ≠ 360 then do
    let sid ← shapeStr sh
    .ok [Msg.notClosed sid]
  else .ok []

/-- The `toCheck` loop of `emnObj.checkClosedErrors` for one shape. -/
def closedSubsAux (sh : Shape) : List (List Vertex) → Except Err (List Msg)
  | [] => .ok []
  | s :: rest => do
    let m ← closedSub sh s
    let ms ← closedSubsAux sh rest
    .ok (m ++ ms)

/-- `emnObj.checkClosedErrors`: the outline and every cutout of every
shape, in order. -/
def checkClosedErrors : List Shape → Except Err (List Msg)
  | [] => .ok []
  | sh :: rest => do
    let m ← closedSubsAux sh (sh.outline :: sh.cutouts)
    let ms ← checkClosedErrors rest
    .ok (m ++ ms)

/-- `emnObj.checkRefDesErrors`: flags a part whose reference designator
begins with the character R.  `part.refDes[0]` is read unguarded, so an
empty reference designator raises `IndexError` (messages appended
before the raise are lost here together with the aborted run). -/
def checkRefDesErrors : List Part → Except Err (List Msg)
  | [] => .ok []
  | p :: ps =>
    match p.refDes with
    | [] => .error .indexErr
    | c :: _ => do
      let rest ← checkRefDesErrors ps
      .ok ((if c = 'R' then [Msg.refDesR p.name p.refDes p.x p.y] else []) ++ rest)

/-- The round-cutout condition: exactly 2 vertices, second sweep angle
exactly 360. -/
def isRound (c : List Vertex) : Bool :=
  c.length = 2 && (c.getD 1 default).sweep = 360

/-- The message loop of `emnObj.checkRoundCutout` over the surviving
`toCheck` list: one message per full-circle cutout, its text built with
`currentShape.__str__()` (which raises on an empty outline). -/
def roundMsgsAux (sh : Shape) : List (List Vertex) → Except Err (List Msg)
  | [] => .ok []
  | c :: rest =>
    if isRound c then do
      let sid ← shapeStr sh
      let ms ← roundMsgsAux sh rest
      .ok (Msg.roundCutout sid c.headI.x c.headI.y :: ms)
    else roundMsgsAux sh rest

/-- `emnObj.checkRoundCutout`.  The source resets `toCheck = []` at the
top of every iteration of the shape loop and only reads it after the
loop, so only the final iteration survives: the fold mirrors that loop,
ending in the last shape (also the loop variable `currentShape` the
message text uses), or `none` when there are no shapes. -/
def checkRoundCutout (shapes : List Shape) : Except Err (List Msg) :=
  match shapes.foldl (fun _ sh => some sh) none with
  | none => .ok []
  | some lastSh => roundMsgsAux lastSh lastSh.cutouts

/-- `emnObj.checkEmpty`. -/
def checkEmpty (shapes : List Shape) : List Msg :=
  if shapes = [] then [Msg.noShapes] else []

/-- Python `str.upper()` on a part name. -/
def upperChars (l : Line) : Line := l.map Char.toUpper

/-- The invalid-character test of `emnObj.checkLibErrors`: an
underscore, a caret, or the (redundant) two-character `_cc`. -/
def invalidName (n : Line) : Bool :=
  occurs "_".toList n || occurs "^".toList n || occurs "_cc".toList n

/-- The part loop of `emnObj.checkLibErrors`: `circ` is `circFlag`;
the not-in-library message is suppressed for a part already flagged for
invalid characters; the CircuitWorks summary appears once after the
loop when any part was flagged. -/
def checkLibAux (lib : List Line) : List Part → Bool → List Msg
  | [], circ => if circ then [Msg.circuitWorks] else []
  | p :: ps, circ =>
    (if invalidName p.name then [Msg.invalidChars p.name p.refDes]
     else if ¬ lib.contains (upperChars p.name) then [Msg.notInLib p.name]
     else [])
      ++ checkLibAux lib ps (circ || invalidName p.name)

/-- `emnObj.checkLibErrors`. -/
def checkLibErrors (lib : List Line) (parts : List Part) : List Msg :=
  checkLibAux lib parts false

/-! ### Arc-tangent degeneracy check (`emnObj.checkArcAngle`)

`math.atan2 y x` is the principal argument of the complex number
`x + y*I` (range `(-π, π]`, matching CPython on these inputs);
`math.fmod` truncates the quotient; `math.isclose` follows its
documented formula.  The predicate inside the check is not decidable
over `ℝ`, so the conditional is classical. -/

/-- `math.atan2`. -/
noncomputable def atan2 (y x : ℝ) : ℝ := Complex.arg ⟨x, y⟩

/-- `math.tau`. -/
noncomputable def tauR : ℝ := 2 * Real.pi

/-- Truncation toward zero, as C `fmod` uses. -/
noncomputable def rtrunc (x : ℝ) : ℤ := if 0 ≤ x then ⌊x⌋ else ⌈x⌉

/-- `math.fmod` (the result keeps the sign of the first argument). -/
noncomputable def fmodR (a b : ℝ) : ℝ := a - b * rtrunc (a / b)

/-- `math.radians`. -/
noncomputable def radiansR (d : ℝ) : ℝ := d * Real.pi / 180

/-- `math.isclose a b` with relative tolerance `rel` and absolute
tolerance `abst`. -/
def isclose (a b rel abst : ℝ) : Prop :=
  |a - b| ≤ max (rel * max |a| |b|) abst

/-- The fire condition of one iteration of the inner loop of
`emnObj.checkArcAngle`, on the vertex list `s` (the subshape after the
duplicate closing vertex `s[0]` was dropped) at loop index `i`.  The
Python negative indices `s[i-1]`, `s[i-2]` wrap, embedded as addition
of `n` before the subtraction mod `n`. -/
noncomputable def arcDelta (s : List Vertex) (i : ℕ) : ℝ :=
  let n := s.length
  let vm1 := s.getD ((i + n - 1) % n) default
  let vm2 := s.getD ((i + n - 2) % n) default
  let vi := s.getD i default
  let phi0 : ℝ := radiansR (vm1.sweep : ℝ)
  let phi1 : ℝ := radiansR (vi.sweep : ℝ)
  let alpha0 := fmodR (atan2 ((vm2.y : ℝ) - (vm1.y : ℝ)) ((vm2.x : ℝ) - (vm1.x : ℝ)) + tauR) tauR
  let alpha1 := fmodR (atan2 ((vi.y : ℝ) - (vm1.y : ℝ)) ((vi.x : ℝ) - (vm1.x : ℝ)) + tauR) tauR
  let beta0 := alpha0 + phi0 / 2
  let beta1 := alpha1 - phi1 / 2
  fmodR |beta1 - beta0| tauR

open Classical in
/-- One iteration of the inner loop of `emnObj.checkArcAngle`: skipped
when both adjacent sweep fields are zero; otherwise the message is
emitted at the coordinates of `s[i-1]` when the folded tangent
difference is within tolerance of 0 or of `tau`. -/
noncomputable def arcStep (s : List Vertex) (i : ℕ) : List Msg :=
  let n := s.length
  let vm1 := s.getD ((i + n - 1) % n) default
  let vi := s.getD i default
  if vm1.sweep ≠ 0 ∨ vi.sweep ≠ 0 then
    if isclose (arcDelta s i) 0 (1 / 100) (1 / 100)
        ∨ isclose (arcDelta s i) tauR (1 / 100) (1 / 100) then
      [Msg.arcCusp vm1.x vm1.y]
    else []
  else []

/-- The per-subshape body of `emnObj.checkArcAngle`: drop the first
vertex (`s = s[1:]`), and only subshapes longer than 2 after the drop
are scanned. -/
noncomputable def arcSubMsgs (s0 : List Vertex) : List Msg :=
  let s := s0.drop 1
  if 2 < s.length then (List.range s.length).flatMap (arcStep s) else []

/-- `emnObj.checkArcAngle`: the outline and every cutout of every
shape. -/
noncomputable def checkArcAngle (shapes : List Shape) : List Msg :=
  shapes.flatMap fun sh => (sh.outline :: sh.cutouts).flatMap arcSubMsgs

/-- `emnObj.checkAllErrors`: the fixed battery, appending to the error
list the board already carries; the library check runs only when the
supplied library list is nonempty (the Python truthiness test
`if partsLibrary:`).  The height, negative-coordinate, closure,
reference-designator and round-cutout checks can raise, which aborts
the run (messages a Python run would have appended before the raise
are discarded with it). -/
noncomputable def checkAllErrors (b : Board) (lib : List Line) : Except Err Board := do
  let m1 ← checkHeightErrors b.units b.shapes
  let m2 ← checkNegErrors b
  let m3 ← checkClosedErrors b.shapes
  let m4 ← checkRefDesErrors b.parts
  let m5 ← checkRoundCutout b.shapes
  let m6 := checkEmpty b.shapes
  let m7 := checkArcAngle b.shapes
  let m8 := if lib ≠ [] then checkLibErrors lib b.parts else []
  .ok { b with errors := b.errors ++ m1 ++ m2 ++ m3 ++ m4 ++ m5 ++ m6 ++ m7 ++ m8 }

/-- Modelled from the spec: running the validation battery with no
library collaborator supplied at all — §4.4 makes the library check
"optional — only run when a membership collaborator is supplied" and
§7 says a missing collaborator simply skips that check.  The battery
is the same fixed sequence with no library step. -/
noncomputable def checkAllErrorsNoLib (b : Board) : Except Err Board := do
  let m1 ← checkHeightErrors b.units b.shapes
  let m2 ← checkNegErrors b
  let m3 ← checkClosedErrors b.shapes
  let m4 ← checkRefDesErrors b.parts
  let m5 ← checkRoundCutout b.shapes
  let m6 := checkEmpty b.shapes
  let m7 := checkArcAngle b.shapes
  .ok { b with errors := b.errors ++ m1 ++ m2 ++ m3 ++ m4 ++ m5 ++ m6 ++ m7 }

/-- The three message kinds only the library check produces. -/
def isLibMsg : Msg → Bool
  | .invalidChars _ _ => true
  | .circuitWorks => true
  | .notInLib _ => true
  | _ => false

/-! ### Concrete inputs used to settle the claims -/

/-- A well-formed one-shape board file. -/
def c4good : List Line :=
  [".BOARD_OUTLINE".toList, "10".toList, "0 0 0 0".toList, "0 5 0 0".toList,
   "0 0 0 0".toList, ".END_BOARD_OUTLINE".toList]

/-- The board built from `c4good`. -/
def c4goodBoard : Board :=
  ⟨"good.emn", [], [⟨BOARD_START, [[⟨0, 0, 0, 0⟩, ⟨0, 5, 0, 0⟩, ⟨0, 0, 0, 0⟩]], 10⟩],
   [], "ERROR".toList, []⟩

/-- The same file with one malformed numeric field (`abc`) in a
4-field coordinate record. -/
def c4bad : List Line :=
  [".BOARD_OUTLINE".toList, "10".toList, "0 abc 0 0".toList, ".END_BOARD_OUTLINE".toList]

/-- A file with a route-keepout section written with the IDF 3.0
markers `.ROUTE_KEEPOUT` / `.END_ROUTE_KEEPOUT`. -/
def c3lines : List Line :=
  [".ROUTE_KEEPOUT".toList, "0 0 0 0".toList, ".END_ROUTE_KEEPOUT".toList]

/-- A file whose header ends without a units token, followed by a
well-formed board outline. -/
def c5lines : List Line :=
  [".HEADER".toList, ".END_HEADER".toList, ".BOARD_OUTLINE".toList, "10".toList,
   "0 0 0 0".toList, "0 5 0 0".toList, "0 0 0 0".toList, ".END_BOARD_OUTLINE".toList]

/-- The board built from `c5lines`: its error list already holds the
missing-units diagnostic straight out of construction. -/
def c5board : Board :=
  ⟨"f.emn", [], [⟨BOARD_START, [[⟨0, 0, 0, 0⟩, ⟨0, 5, 0, 0⟩, ⟨0, 0, 0, 0⟩]], 10⟩],
   [Msg.noUnits], "ERROR".toList, []⟩

/-- A 2-vertex full-circle (sweep 360) cutout. -/
def c2cut : List Vertex := [⟨1, 5, 5, 0⟩, ⟨1, 6, 5, 360⟩]

/-- A shape carrying the round cutout `c2cut`. -/
def c2shapeA : Shape := ⟨BOARD_START, [[⟨0, 0, 0, 0⟩], c2cut], 0⟩

/-- A later shape with no cutouts. -/
def c2shapeB : Shape := ⟨PLACE_KEEPOUT_START, [[⟨0, 9, 9, 0⟩]], 0⟩

/-- A place-outline shape of the given height, used at the height-check
boundaries. -/
def placeOutlineOfHeight (h : ℚ) : Shape :=
  ⟨PLACE_OUTLINE_START, [[⟨0, 0, 0, 0⟩]], h⟩

/-- A THOU file whose place-outline section parses fine (height field
1) but contains no 4-field coordinate line, so the built shape has an
empty outline yet is flagged by the height check. -/
def c6lines : List Line :=
  [".HEADER".toList, "THOU".toList, ".END_HEADER".toList,
   ".PLACE_OUTLINE PLACED".toList, "0.01 1".toList, ".END_PLACE_OUTLINE".toList]

/-- The board built from `c6lines`: one place-outline shape with an
empty outline and height 1. -/
def c6board : Board :=
  ⟨"p.emn", [], [⟨PLACE_OUTLINE_START, [[]], 1⟩], [], "THOU".toList, []⟩

/-- A board-outline section whose first (and only) coordinate run has
loop index 1, so the built shape has an empty outline and one unclosed
3-vertex cutout. -/
def c7lines : List Line :=
  [".BOARD_OUTLINE".toList, "10".toList, "1 0 0 0".toList, "1 5 0 0".toList,
   "1 5 5 0".toList, ".END_BOARD_OUTLINE".toList]

/-- The unclosed loop-1 cutout of `c7lines`. -/
def c7cut : List Vertex := [⟨1, 0, 0, 0⟩, ⟨1, 5, 0, 0⟩, ⟨1, 5, 5, 0⟩]

/-- The board built from `c7lines`. -/
def c7board : Board :=
  ⟨"c.emn", [], [⟨BOARD_START, [[], c7cut], 10⟩], [], "ERROR".toList, []⟩

/-- The outline of the arc-check counterexample: the duplicate closing
vertex comes first, and after it is dropped the scanned list is
`(0,0)` sweep 0, `(1,0)` sweep 360, `(2,0)` sweep 0. -/
def c1outline : List Vertex :=
  [⟨0, 2, 0, 0⟩, ⟨0, 0, 0, 0⟩, ⟨0, 1, 0, 360⟩, ⟨0, 2, 0, 0⟩]

/-- The scanned list `s = s[1:]` of `c1outline`. -/
def c1sL : List Vertex := [⟨0, 0, 0, 0⟩, ⟨0, 1, 0, 360⟩, ⟨0, 2, 0, 0⟩]

/-- The shape whose outline is `c1outline`. -/
def c1shape : Shape := ⟨BOARD_START, [c1outline], 0⟩

/-- Three colinear vertices `(0,0)→(1,0)→(2,0)`, all sweep 0. -/
def c8outline : List Vertex := [⟨0, 0, 0, 0⟩, ⟨0, 1, 0, 0⟩, ⟨0, 2, 0, 0⟩]

/-- The colinear subshape preceded by its closing duplicate, so that
the inner loop of the arc check actually runs over three vertices, all
of whose adjacent sweeps are zero. -/
def c8outline4 : List Vertex :=
  [⟨0, 2, 0, 0⟩, ⟨0, 0, 0, 0⟩, ⟨0, 1, 0, 0⟩, ⟨0, 2, 0, 0⟩]

/-- The shape whose outline is `c8outline`. -/
def c8shape : Shape := ⟨BOARD_START, [c8outline], 0⟩

/-- The placement first line of the refdes counterexample: a quoted
name with only whitespace after the closing quote. -/
def c10line : Line := "\"PN\"   ".toList

/-- The part the decoder builds from `c10line`: its reference
designator is empty. -/
def c10part : Part := ⟨"PN".toList, [], 1, 2, 0, "TOP".toList⟩

/-- A part with a nonempty reference designator. -/
def c10okPart : Part := ⟨"PN".toList, "C1".toList, 1, 2, 0, "TOP".toList⟩

/-- A board with no shapes, parts or drills whose construction-time
error list already carries a library-kind message, used to witness that
validation only appends. -/
def c9board : Board := ⟨"e.emn", [], [], [Msg.circuitWorks], "ERROR".toList, []⟩

/-- `c9board` after the validation battery: the empty-data diagnostic
is appended, nothing else. -/
def c9after : Board := ⟨"e.emn", [], [], [Msg.circuitWorks, Msg.noShapes], "ERROR".toList, []⟩

/-! ## Helper lemmas -/

/-- The `toCheck`/`currentShape` loop of `checkRoundCutout` keeps only
the last shape. -/
theorem foldl_some_eq_getLast (l : List Shape) (init : Option Shape) :
    l.foldl (fun _ sh => some sh) init = l.getLast?.or init := by
  induction l generalizing init with
  | nil => simp
  | cons a as ih =>
    rw [List.foldl_cons, ih (some a)]
    cases h : as.getLast? with
    | none =>
      have ha : as = [] := by
        cases as with
        | nil => rfl
        | cons b bs => simp [List.getLast?_concat] at h
      subst ha; simp
    | some x =>
      cases as with
      | nil => simp at h
      | cons b bs => simp [List.getLast?_cons_cons, h, Option.or]

/-- `shape.__str__` succeeds with the `shapeId` payload exactly when
the outline is nonempty. -/
theorem shapeStr_ok {s : Shape} (h : s.outline ≠ []) :
    shapeStr s = .ok (shapeId s) := by
  cases ho : s.outline with
  | nil => exact absurd ho h
  | cons v rest => simp [shapeStr, shapeId, ho]

/-- `shape.__str__` raises on an empty outline. -/
theorem shapeStr_err {s : Shape} (h : s.outline = []) :
    shapeStr s = .error .indexErr := by
  simp [shapeStr, h]

/-- The height loop unrolled, when every flagged shape has a nonempty
outline: the flagged shapes in order, then the summary when the
incoming flag or any shape sets it. -/
theorem checkHeightAux_eq (units : Line) (shapes : List Shape) (flag : Bool)
    (hok : ∀ s ∈ shapes, heightBad units s = true → s.outline ≠ []) :
    checkHeightAux units shapes flag =
      .ok ((shapes.filter (heightBad units)).map (fun s => Msg.tooShort (shapeId s))
        ++ (if flag || shapes.any (heightBad units) then [Msg.heightSummary] else [])) := by
  induction shapes generalizing flag with
  | nil => simp [checkHeightAux]
  | cons s ss ih =>
    have hok' : ∀ q ∈ ss, heightBad units q = true → q.outline ≠ [] :=
      fun q hq => hok q (List.mem_cons_of_mem _ hq)
    rw [checkHeightAux]
    by_cases h : heightBad units s = true
    · have hne : s.outline ≠ [] := hok s (List.mem_cons_self _ _) h
      rw [if_pos h]
      simp [h, shapeStr_ok hne, ih true hok', Bind.bind, Except.bind,
        List.filter_cons, List.any_cons]
    · rw [if_neg h, ih (flag || heightBad units s) hok']
      rw [Bool.not_eq_true] at h
      simp [h, Bool.or_assoc, List.filter_cons, List.any_cons]

/-- The height loop raises when some flagged shape has an empty
outline. -/
theorem checkHeightAux_err (units : Line) (shapes : List Shape) (flag : Bool)
    (hbad : ∃ s ∈ shapes, heightBad units s = true ∧ s.outline = []) :
    checkHeightAux units shapes flag = .error .indexErr := by
  induction shapes generalizing flag with
  | nil => simp at hbad
  | cons s ss ih =>
    rw [checkHeightAux]
    obtain ⟨t, hmem, hbt, hot⟩ := hbad
    rcases List.mem_cons.mp hmem with rfl | hmem2
    · simp [hbt, shapeStr_err hot, Bind.bind, Except.bind]
    · by_cases h : heightBad units s = true
      · cases hstr : shapeStr s with
        | error e =>
          have : e = Err.indexErr := by
            cases hos : s.outline with
            | nil => rw [shapeStr_err hos] at hstr; cases hstr; rfl
            | cons v r => rw [shapeStr_ok (by simp [hos])] at hstr; cases hstr
          subst this
          simp [h, hstr, Bind.bind, Except.bind]
        | ok sid =>
          simp [h, hstr, Bind.bind, Except.bind, ih true ⟨t, hmem2, hbt, hot⟩]
      · simp only [h, if_false, Bool.false_eq_true]
        exact ih (flag || false) ⟨t, hmem2, hbt, hot⟩

/-! ## Claims -/

/-- The round-cutout message loop, when the surviving shape has a
nonempty outline: one message per full-circle cutout, in order. -/
theorem roundMsgsAux_eq (sh : Shape) (hne : sh.outline ≠ []) (cs : List (List Vertex)) :
    roundMsgsAux sh cs =
      .ok ((cs.filter isRound).map
        (fun c => Msg.roundCutout (shapeId sh) c.headI.x c.headI.y)) := by
  induction cs with
  | nil => simp [roundMsgsAux]
  | cons c rest ih =>
    rw [roundMsgsAux]
    by_cases h : isRound c = true
    · simp [h, shapeStr_ok hne, ih, Bind.bind, Except.bind]
    · simp [h, ih, Bool.eq_false_iff.mpr]

/-- The round-cutout message loop raises when the surviving shape has
an empty outline and some cutout is a full circle. -/
theorem roundMsgsAux_err (sh : Shape) (he : sh.outline = []) (cs : List (List Vertex))
    (hex : ∃ c ∈ cs, isRound c = true) :
    roundMsgsAux sh cs = .error .indexErr := by
  induction cs with
  | nil => simp at hex
  | cons c rest ih =>
    rw [roundMsgsAux]
    obtain ⟨d, hmem, hd⟩ := hex
    rcases List.mem_cons.mp hmem with rfl | hmem2
    · simp [hd, shapeStr_err he, Bind.bind, Except.bind]
    · by_cases h : isRound c = true
      · simp [h, shapeStr_err he, Bind.bind, Except.bind]
      · simp [h, ih ⟨d, hmem2, hd⟩]

/-- Claim C2, counterexample: the board `[c2shapeA, c2shapeB]` has a
2-vertex sweep-360 cutout on its first shape, yet the round-cutout
check emits nothing, because the source resets its `toCheck` list on
every iteration of the shape loop and only the last shape (which has no
cutouts) survives. -/
theorem C2_counterexample :
    checkRoundCutout [c2shapeA, c2shapeB] = .ok []
      ∧ c2shapeA.cutouts = [c2cut]
      ∧ c2cut.length = 2 ∧ (c2cut.getD 1 default).sweep = 360 := by decide

/-- Claim C2, amended: only the last shape of the board is inspected by
the round-cutout check; when its outline is nonempty, each of its
2-vertex sweep-360 cutouts yields exactly one round-cutout diagnostic
(in order); when its outline is empty and it has such a cutout, the
check instead raises `IndexError` in `shape.__str__` and emits
nothing; and such a cutout never yields a closure diagnostic, for any
shape. -/
theorem C2_amended_round_cutout :
    (∀ (shapes : List Shape) (lastSh : Shape), shapes.getLast? = some lastSh →
        lastSh.outline ≠ [] →
        checkRoundCutout shapes =
          .ok ((lastSh.cutouts.filter isRound).map
            (fun c => Msg.roundCutout (shapeId lastSh) c.headI.x c.headI.y)))
      ∧ (∀ (shapes : List Shape) (lastSh : Shape), shapes.getLast? = some lastSh →
          lastSh.outline = [] → (∃ c ∈ lastSh.cutouts, isRound c = true) →
          checkRoundCutout shapes = .error .indexErr)
      ∧ (∀ (sh : Shape) (c : List Vertex),
          c.length = 2 → (c.getD 1 default).sweep = 360 → closedSub sh c = .ok []) := by
  refine ⟨fun shapes lastSh h hne => ?_, fun shapes lastSh h he hex => ?_,
    fun sh c hl hs => ?_⟩
  · rw [checkRoundCutout, foldl_some_eq_getLast, h]
    exact roundMsgsAux_eq lastSh hne lastSh.cutouts
  · rw [checkRoundCutout, foldl_some_eq_getLast, h]
    exact roundMsgsAux_err lastSh he lastSh.cutouts hex
  · obtain ⟨a, b, rfl⟩ : ∃ a b, c = [a, b] := by
      cases c with
      | nil => simp at hl
      | cons a t =>
        cases t with
        | nil => simp at hl
        | cons b t2 =>
          cases t2 with
          | nil => exact ⟨a, b, rfl⟩
          | cons x t3 => simp at hl
    simp only [List.getD_cons_succ, List.getD_cons_zero] at hs
    simp [closedSub, hs]

/-- Claim C2, amended, witnessed on a one-shape board whose round
cutout is reported once and never flagged as unclosed. -/
theorem C2_amended_round_cutout_witness :
    checkRoundCutout [c2shapeA] =
      .ok ((c2shapeA.cutouts.filter isRound).map
        (fun c => Msg.roundCutout (shapeId c2shapeA) c.headI.x c.headI.y))
      ∧ closedSub c2shapeA c2cut = .ok [] :=
  ⟨C2_amended_round_cutout.1 [c2shapeA] c2shapeA (by decide) (by decide),
   C2_amended_round_cutout.2.2 c2shapeA c2cut (by decide) (by decide)⟩

/-- Claim C3: the source misspells the route-keepout start marker
(`".ROUTE_KEEOUT"`), so the standard `.ROUTE_KEEPOUT` start line never
opens a span; the correctly spelled end marker then hands the
constructor an empty line group, and `sData[0]` raises `IndexError`.
No route-keepout shape is ever produced from a standard section. -/
theorem C3_route_keepout_bug :
    occurs ROUTE_KEEPOUT_START ".ROUTE_KEEPOUT".toList = false
      ∧ occurs ROUTE_KEEPOUT_END ".END_ROUTE_KEEPOUT".toList = true
      ∧ getShapeGroups [] false c3lines = [[]]
      ∧ getShapes c3lines = .error .indexErr
      ∧ buildBoard c3lines "k.emn" = .error .indexErr := by decide

/-- Claim C4, counterexample: one malformed numeric field in the first
file makes the whole batch construction fail; the second, well-formed
file is never turned into a board, although on its own it builds
fine. -/
theorem C4_counterexample :
    buildAll [("bad.emn", c4bad), ("good.emn", c4good)] = .error .valueErr
      ∧ buildBoard c4good "good.emn" = .ok c4goodBoard := by decide

/-- Claim C4, amended: a record line whose numeric field fails float
parsing is a distinct propagated error for that file (no coercion to
zero, no diagnostic), and in a batch, any file failing to build makes
the whole batch fail — no board list is returned for the other
files. -/
theorem C4_amended_parse_failure :
    (∀ (files : List (String × List Line)) (n : String) (ls : List Line) (e : Err),
        (n, ls) ∈ files → buildBoard ls n = .error e →
        ∃ e2, buildAll files = .error e2)
      ∧ buildBoard c4bad "bad.emn" = .error .valueErr := by
  constructor
  · intro files
    induction files with
    | nil => intro n ls e h; simp at h
    | cons hd tl ih =>
      obtain ⟨hn, hls⟩ := hd
      intro n ls e hmem herr
      rcases List.mem_cons.1 hmem with h | h
      · obtain ⟨rfl, rfl⟩ := Prod.mk.injEq .. ▸ h
        exact ⟨e, by simp [buildAll, herr, Bind.bind, Except.bind]⟩
      · cases hb : buildBoard hls hn with
        | error e1 => exact ⟨e1, by simp [buildAll, hb, Bind.bind, Except.bind]⟩
        | ok b =>
          obtain ⟨e2, h2⟩ := ih n ls e h herr
          exact ⟨e2, by simp [buildAll, hb, h2, Bind.bind, Except.bind]⟩
  · decide

/-- Claim C4, amended, witnessed: the failing batch of the
counterexample input. -/
theorem C4_amended_parse_failure_witness :
    ∃ e2, buildAll [("bad.emn", c4bad), ("good.emn", c4good)] = .error e2 :=
  C4_amended_parse_failure.1 [("bad.emn", c4bad), ("good.emn", c4good)]
    "bad.emn" c4bad .valueErr (by decide) (by decide)

/-- Claim C5, counterexample: a file whose header ends without units
builds a board whose diagnostics list is already nonempty — `getUnits`
runs inside `__init__` and appends the missing-units message during
construction, not in the validation engine. -/
theorem C5_counterexample :
    buildBoard c5lines "f.emn" = .ok c5board
      ∧ c5board.errors = [Msg.noUnits]
      ∧ ([Msg.noUnits] : List Msg) ≠ [] := by decide

/-- Claim C5, amended: after construction the diagnostics list holds
exactly what the units scan appended (empty iff a units token was found
before a header-end line, or no header-end line was reached); after
that, the validation battery only appends to the list it finds. -/
theorem C5_amended_construction :
    (∀ (lines : List Line) (fname : String) (b : Board),
        buildBoard lines fname = .ok b → b.errors = (getUnits lines).2)
      ∧ (∀ (b : Board) (lib : List Line) (b2 : Board),
        checkAllErrors b lib = .ok b2 → ∃ new, b2.errors = b.errors ++ new) := by
  constructor
  · intro lines fname b h
    unfold buildBoard at h
    cases hp : getParts lines with
    | error e => rw [hp] at h; simp [Bind.bind, Except.bind] at h
    | ok ps =>
      rw [hp] at h
      cases hs : getShapes lines with
      | error e => rw [hs] at h; simp [Bind.bind, Except.bind] at h
      | ok sh =>
        rw [hs] at h
        cases hd : getDrills lines with
        | error e => rw [hd] at h; simp [Bind.bind, Except.bind] at h
        | ok dr =>
          rw [hd] at h
          simp only [Bind.bind, Except.bind] at h
          cases h
          rfl
  · intro b lib b2 h
    unfold checkAllErrors at h
    cases h1 : checkHeightErrors b.units b.shapes with
    | error e => rw [h1] at h; simp [Bind.bind, Except.bind] at h
    | ok m1 =>
      rw [h1] at h
      cases h2 : checkNegErrors b with
      | error e => rw [h2] at h; simp [Bind.bind, Except.bind] at h
      | ok m2 =>
        rw [h2] at h
        cases h3 : checkClosedErrors b.shapes with
        | error e => rw [h3] at h; simp [Bind.bind, Except.bind] at h
        | ok m3 =>
          rw [h3] at h
          cases h4 : checkRefDesErrors b.parts with
          | error e => rw [h4] at h; simp [Bind.bind, Except.bind] at h
          | ok m4 =>
            rw [h4] at h
            cases h5 : checkRoundCutout b.shapes with
            | error e => rw [h5] at h; simp [Bind.bind, Except.bind] at h
            | ok m5 =>
              rw [h5] at h
              simp only [Bind.bind, Except.bind] at h
              cases h
              refine ⟨m1 ++ m2 ++ m3 ++ m4 ++ m5 ++ checkEmpty b.shapes
                ++ checkArcAngle b.shapes
                ++ (if lib ≠ [] then checkLibErrors lib b.parts else []), ?_⟩
              simp [List.append_assoc]

/-- Claim C5, amended, witnessed on the missing-units file and on a
concrete validated board. -/
theorem C5_amended_construction_witness :
    c5board.errors = (getUnits c5lines).2
      ∧ ∃ new, c9after.errors = c9board.errors ++ new :=
  ⟨C5_amended_construction.1 c5lines "f.emn" c5board (by decide),
   C5_amended_construction.2 c9board [] c9after rfl⟩

/-- Claim C6, counterexample: `c6lines` is a real file whose
place-outline section parses (height 1, units THOU) but holds no
4-field line, so the built shape has an empty outline.  The shape
satisfies the flag condition (height 1 ≤ 1 under THOU), yet the height
check emits no diagnostic for it and no summary: it raises `IndexError`
in `shape.__str__`.  The claimed iff is false of the program here. -/
theorem C6_counterexample :
    buildBoard c6lines "p.emn" = .ok c6board
      ∧ (c6board.shapes.getD 0 default).sType = PLACE_OUTLINE_START
      ∧ heightBad c6board.units (c6board.shapes.getD 0 default) = true
      ∧ checkHeightErrors c6board.units c6board.shapes = .error .indexErr := by decide

/-- Claim C6, amended: when every flagged shape has a nonempty outline,
the height check flags exactly the place-outline shapes at most 0.026
high under MM units, and at most 1 high under THOU units (boundaries
included), one message per flagged shape in order, plus exactly one
keepout-recommendation summary iff any shape was flagged; when some
flagged shape has an empty outline the check instead raises
`IndexError` in `shape.__str__` and emits nothing. -/
theorem C6_amended_height_check :
    (∀ (units : Line) (shapes : List Shape),
        (∀ s ∈ shapes, heightBad units s = true → s.outline ≠ []) →
        checkHeightErrors units shapes =
          .ok ((shapes.filter (heightBad units)).map (fun s => Msg.tooShort (shapeId s))
            ++ (if shapes.any (heightBad units) then [Msg.heightSummary] else [])))
      ∧ (∀ (units : Line) (shapes : List Shape),
          (∃ s ∈ shapes, heightBad units s = true ∧ s.outline = []) →
          checkHeightErrors units shapes = .error .indexErr)
      ∧ (∀ s : Shape, s.sType = PLACE_OUTLINE_START →
          ((heightBad "MM".toList s = true) ↔ s.height ≤ 26 / 1000))
      ∧ (∀ s : Shape, s.sType = PLACE_OUTLINE_START →
          ((heightBad "THOU".toList s = true) ↔ s.height ≤ 1))
      ∧ heightBad "MM".toList (placeOutlineOfHeight (26 / 1000)) = true
      ∧ heightBad "MM".toList (placeOutlineOfHeight (261 / 10000)) = false
      ∧ heightBad "THOU".toList (placeOutlineOfHeight 1) = true
      ∧ heightBad "THOU".toList (placeOutlineOfHeight (101 / 100)) = false := by
  refine ⟨fun units shapes hok => ?_, fun units shapes hbad => ?_, fun s hs => ?_,
    fun s hs => ?_, by decide, by decide, by decide, by decide⟩
  · rw [checkHeightErrors, checkHeightAux_eq units shapes false hok]; simp
  · exact checkHeightAux_err units shapes false hbad
  · simp [heightBad, hs, show ("MM".toList : Line) ≠ "THOU".toList from by decide]
  · simp [heightBad, hs, show ("THOU".toList : Line) ≠ "MM".toList from by decide]

/-- Claim C6, amended, witnessed on a one-shape board at the THOU
boundary (nonempty outline, so the message list is produced). -/
theorem C6_amended_height_check_witness :
    checkHeightErrors "THOU".toList [placeOutlineOfHeight 1] =
      .ok ((([placeOutlineOfHeight 1].filter (heightBad "THOU".toList)).map
          (fun s => Msg.tooShort (shapeId s)))
        ++ (if [placeOutlineOfHeight 1].any (heightBad "THOU".toList)
            then [Msg.heightSummary] else []))
      ∧ ((heightBad "THOU".toList (placeOutlineOfHeight 1) = true)
        ↔ (placeOutlineOfHeight 1).height ≤ 1) :=
  ⟨C6_amended_height_check.1 "THOU".toList [placeOutlineOfHeight 1] (by decide),
   C6_amended_height_check.2.2.2.1 (placeOutlineOfHeight 1) (by decide)⟩

/-- Claim C10: the reference-designator check reads `refDes[0]`
unguarded, so it is total exactly when every reference designator is
nonempty; the quoted placement line `"PN"` followed by only whitespace
decodes to an empty reference designator, on which the check raises
`IndexError` instead of emitting or skipping. -/
theorem C10_refdes_unguarded :
    (∀ parts : List Part, (∀ p ∈ parts, p.refDes ≠ []) →
        ∃ ms, checkRefDesErrors parts = .ok ms)
      ∧ getNames c10line = .ok ("PN".toList, [])
      ∧ mkPart c10line "1 2 0 0 TOP".toList = .ok c10part
      ∧ c10part.refDes = []
      ∧ checkRefDesErrors [c10part] = .error .indexErr := by
  refine ⟨?_, by decide, by decide, by decide, by decide⟩
  intro parts h
  induction parts with
  | nil => exact ⟨[], rfl⟩
  | cons p ps ih =>
    obtain ⟨ms, hms⟩ := ih (fun q hq => h q (List.mem_cons_of_mem _ hq))
    have hp := h p (List.mem_cons_self _ _)
    cases hrd : p.refDes with
    | nil => exact absurd hrd hp
    | cons c cs =>
      refine ⟨(if c = 'R' then [Msg.refDesR p.name p.refDes p.x p.y] else []) ++ ms, ?_⟩
      simp [checkRefDesErrors, hrd, hms, Bind.bind, Except.bind]

/-- Claim C10, witnessed on a part with designator C1. -/
theorem C10_refdes_unguarded_witness :
    ∃ ms, checkRefDesErrors [c10okPart] = .ok ms :=
  C10_refdes_unguarded.1 [c10okPart] (by decide)

/-- Claim C7, counterexample: `c7lines` is a real file whose only
coordinate run has loop index 1, so the built shape has an empty
outline and one 3-vertex cutout whose first and last coordinates
differ.  The claim says that cutout produces a not-closed diagnostic;
the program instead raises `IndexError` in `shape.__str__` while
building the message and emits nothing. -/
theorem C7_counterexample :
    buildBoard c7lines "c.emn" = .ok c7board
      ∧ (c7board.shapes.getD 0 default).outline = []
      ∧ (c7board.shapes.getD 0 default).cutouts = [c7cut]
      ∧ 3 ≤ c7cut.length
      ∧ ¬(c7cut.headI.x = (c7cut.getLastD default).x
          ∧ c7cut.headI.y = (c7cut.getLastD default).y)
      ∧ checkClosedErrors c7board.shapes = .error .indexErr := by decide

/-- Claim C7, amended: per shape with a nonempty outline, the outline
and every cutout are checked independently; a subshape of at least 3
vertices (whose vertices share one loop index, as the builder
guarantees) is flagged exactly when its first and last coordinates
differ, with the cutout flavour of the message (carrying the start
coordinates) exactly when its loop index is nonzero; a 2-vertex
subshape is flagged exactly when its second sweep angle is not 360.
When a diagnostic is due for a shape whose outline is empty, the check
instead raises `IndexError` in `shape.__str__` and emits nothing. -/
theorem C7_amended_closure_check :
    (∀ (sh : Shape) (s : List Vertex), sh.outline ≠ [] →
        (∀ v ∈ s, v.loop = s.headI.loop) → 3 ≤ s.length →
        closedSub sh s =
          .ok (if s.headI.x = (s.getLastD default).x ∧ s.headI.y = (s.getLastD default).y
            then []
            else if s.headI.loop = 0 then [Msg.notClosed (shapeId sh)]
            else [Msg.cutoutNotClosed (shapeId sh) s.headI.x s.headI.y]))
      ∧ (∀ (sh : Shape) (s : List Vertex), sh.outline ≠ [] → s.length = 2 →
          closedSub sh s =
            .ok (if (s.getD 1 default).sweep ≠ 360 then [Msg.notClosed (shapeId sh)] else []))
      ∧ (∀ (sh : Shape) (s : List Vertex), sh.outline = [] → 3 ≤ s.length →
          ¬((s.headI.loop, s.headI.x, s.headI.y)
            = ((s.getLastD default).loop, (s.getLastD default).x, (s.getLastD default).y)) →
          closedSub sh s = .error .indexErr) := by
  refine ⟨fun sh s hsh huni hlen => ?_, fun sh s hsh hlen => ?_,
    fun sh s hsh hlen htriple => ?_⟩
  · have hne : s ≠ [] := by
      intro h; subst h; simp at hlen
    have hmem : s.getLastD default ∈ s := by
      rw [List.getLastD_eq_getLast?, List.getLast?_eq_getLast s hne]
      exact List.getLast_mem hne
    have hloop : (s.getLastD default).loop = s.headI.loop := huni _ hmem
    have hlen2 : s.length ≠ 2 := by omega
    by_cases hxy : s.headI.x = (s.getLastD default).x ∧ s.headI.y = (s.getLastD default).y
    · have htriple : (s.headI.loop, s.headI.x, s.headI.y)
          = ((s.getLastD default).loop, (s.getLastD default).x, (s.getLastD default).y) := by
        simp only [Prod.mk.injEq]
        exact ⟨hloop.symm, hxy.1, hxy.2⟩
      rw [closedSub, if_neg (by simp [htriple]), if_neg (by simp [hlen2]), if_pos hxy]
    · have htriple : ¬((s.headI.loop, s.headI.x, s.headI.y)
          = ((s.getLastD default).loop, (s.getLastD default).x, (s.getLastD default).y)) := by
        simp only [Prod.mk.injEq]
        intro hc
        exact hxy ⟨hc.2.1, hc.2.2⟩
      rw [closedSub, if_pos ⟨hlen, htriple⟩, if_neg hxy]
      simp [shapeStr_ok hsh, Bind.bind, Except.bind]
  · obtain ⟨a, b, rfl⟩ : ∃ a b, s = [a, b] := by
      cases s with
      | nil => simp at hlen
      | cons a t =>
        cases t with
        | nil => simp at hlen
        | cons b t2 =>
          cases t2 with
          | nil => exact ⟨a, b, rfl⟩
          | cons x t3 => simp at hlen
    by_cases hb : b.sweep = 360 <;>
      simp [closedSub, hb, shapeStr_ok hsh, Bind.bind, Except.bind]
  · rw [closedSub, if_pos ⟨hlen, htriple⟩]
    simp [shapeStr_err hsh, Bind.bind, Except.bind]

/-- Claim C7, amended, witnessed on a closed 3-vertex subshape and a
2-vertex subshape of shapes with nonempty outlines. -/
theorem C7_amended_closure_check_witness :
    closedSub c8shape c8outline =
      .ok (if c8outline.headI.x = (c8outline.getLastD default).x
            ∧ c8outline.headI.y = (c8outline.getLastD default).y then []
        else if c8outline.headI.loop = 0 then [Msg.notClosed (shapeId c8shape)]
        else [Msg.cutoutNotClosed (shapeId c8shape) c8outline.headI.x c8outline.headI.y])
      ∧ closedSub c2shapeA c2cut =
        .ok (if (c2cut.getD 1 default).sweep ≠ 360
          then [Msg.notClosed (shapeId c2shapeA)] else []) :=
  ⟨C7_amended_closure_check.1 c8shape c8outline (by decide) (by decide) (by decide),
   C7_amended_closure_check.2.1 c2shapeA c2cut (by decide) (by decide)⟩

/-! ## Real-analysis helpers for the arc-tangent check -/


theorem tauR_pos : 0 < tauR := by
  rw [tauR]; positivity

theorem fmodR_of_nonneg_lt {a b : ℝ} (hb : 0 < b) (h0 : 0 ≤ a) (hlt : a < b) :
    fmodR a b = a := by
  rw [fmodR, rtrunc, if_pos (div_nonneg h0 hb.le)]
  have hf : ⌊a / b⌋ = 0 :=
    Int.floor_eq_zero_iff.mpr ⟨div_nonneg h0 hb.le, (div_lt_one hb).mpr hlt⟩
  rw [hf]; push_cast; ring

theorem fmodR_add_self_of_lt {a b : ℝ} (hb : 0 < b) (h0 : 0 ≤ a) (hlt : a < b) :
    fmodR (a + b) b = a := by
  rw [fmodR, rtrunc, if_pos (by positivity)]
  have hq : (a + b) / b = a / b + 1 := by field_simp
  have hf : ⌊(a + b) / b⌋ = 1 := by
    rw [hq, Int.floor_add_one,
      Int.floor_eq_zero_iff.mpr ⟨div_nonneg h0 hb.le, (div_lt_one hb).mpr hlt⟩]
    norm_num
  rw [hf]; push_cast; ring

theorem fmodR_self {b : ℝ} (hb : 0 < b) : fmodR b b = 0 := by
  rw [fmodR, rtrunc, if_pos (by positivity), div_self (ne_of_gt hb)]
  simp

theorem atan2_zero_of_pos {x : ℝ} (hx : 0 ≤ x) : atan2 0 x = 0 := by
  rw [atan2]
  have h : (⟨x, 0⟩ : ℂ) = (x : ℂ) := by
    apply Complex.ext <;> simp
  rw [h]
  exact Complex.arg_ofReal_of_nonneg hx

theorem atan2_zero_of_neg {x : ℝ} (hx : x < 0) : atan2 0 x = Real.pi := by
  rw [atan2]
  have h : (⟨x, 0⟩ : ℂ) = (x : ℂ) := by
    apply Complex.ext <;> simp
  rw [h]
  exact Complex.arg_ofReal_of_neg hx

theorem radiansR_360 : radiansR 360 = 2 * Real.pi := by rw [radiansR]; ring

theorem radiansR_zero : radiansR 0 = 0 := by rw [radiansR]; ring

theorem isclose_zero_zero : isclose 0 0 (1 / 100) (1 / 100) := by
  rw [isclose]
  simp

theorem not_isclose_pi_zero : ¬ isclose Real.pi 0 (1 / 100) (1 / 100) := by
  have hpi : (3 : ℝ) < Real.pi := Real.pi_gt_three
  rw [isclose, not_le]
  have h0 : |Real.pi - 0| = Real.pi := by
    rw [sub_zero, abs_of_nonneg Real.pi_pos.le]
  rw [h0, abs_of_nonneg Real.pi_pos.le, abs_zero, max_eq_left Real.pi_pos.le]
  apply max_lt <;> nlinarith

theorem not_isclose_pi_tau : ¬ isclose Real.pi tauR (1 / 100) (1 / 100) := by
  have hpi : (3 : ℝ) < Real.pi := Real.pi_gt_three
  rw [isclose, not_le, tauR]
  have h0 : |Real.pi - 2 * Real.pi| = Real.pi := by
    rw [show Real.pi - 2 * Real.pi = -Real.pi by ring, abs_neg,
      abs_of_nonneg Real.pi_pos.le]
  rw [h0, abs_of_nonneg Real.pi_pos.le, abs_of_nonneg (by positivity)]
  rw [max_eq_right (by nlinarith : Real.pi ≤ 2 * Real.pi)]
  apply max_lt <;> nlinarith



/-- Unfold `arcDelta` once the three indexed vertices are known. -/
theorem arcDelta_eval (s : List Vertex) (i : ℕ) (vm1 vm2 vi : Vertex)
    (h1 : s.getD ((i + s.length - 1) % s.length) default = vm1)
    (h2 : s.getD ((i + s.length - 2) % s.length) default = vm2)
    (h3 : s.getD i default = vi) :
    arcDelta s i =
      fmodR |(fmodR (atan2 ((vi.y : ℝ) - (vm1.y : ℝ)) ((vi.x : ℝ) - (vm1.x : ℝ)) + tauR) tauR
            - radiansR (vi.sweep : ℝ) / 2)
          - (fmodR (atan2 ((vm2.y : ℝ) - (vm1.y : ℝ)) ((vm2.x : ℝ) - (vm1.x : ℝ)) + tauR) tauR
            + radiansR (vm1.sweep : ℝ) / 2)| tauR := by
  rw [arcDelta]
  simp only [h1, h2, h3]

theorem c1_arcDelta_1 : arcDelta c1sL 1 = Real.pi := by
  have hpi := Real.pi_pos
  rw [arcDelta_eval c1sL 1 ⟨0, 0, 0, 0⟩ ⟨0, 2, 0, 0⟩ ⟨0, 1, 0, 360⟩
    (by decide) (by decide) (by decide)]
  norm_num
  rw [atan2_zero_of_pos (by norm_num : (0 : ℝ) ≤ 1),
    atan2_zero_of_pos (by norm_num : (0 : ℝ) ≤ 2)]
  rw [zero_add, fmodR_self tauR_pos, radiansR_360, radiansR_zero]
  rw [show (0 : ℝ) - 2 * Real.pi / 2 - (0 + 0 / 2) = -Real.pi from by ring, abs_neg,
    abs_of_nonneg Real.pi_pos.le,
    fmodR_of_nonneg_lt tauR_pos Real.pi_pos.le (by rw [tauR]; linarith)]



theorem c1_arcDelta_2 : arcDelta c1sL 2 = 0 := by
  have hpi := Real.pi_pos
  rw [arcDelta_eval c1sL 2 ⟨0, 1, 0, 360⟩ ⟨0, 0, 0, 0⟩ ⟨0, 2, 0, 0⟩
    (by decide) (by decide) (by decide)]
  norm_num
  rw [atan2_zero_of_pos (by norm_num : (0 : ℝ) ≤ 1),
    atan2_zero_of_neg (by norm_num : (-1 : ℝ) < 0)]
  rw [zero_add, fmodR_self tauR_pos,
    fmodR_add_self_of_lt tauR_pos Real.pi_pos.le (by rw [tauR]; linarith),
    radiansR_360, radiansR_zero]
  rw [show (0 : ℝ) - 0 / 2 - (Real.pi + 2 * Real.pi / 2) = -(2 * Real.pi) from by ring,
    abs_neg, abs_of_nonneg (by positivity), show (2 * Real.pi : ℝ) = tauR from by rw [tauR],
    fmodR_self tauR_pos]



/-- The vertex skip of the arc check: both adjacent sweep fields zero
means the iteration emits nothing. -/
theorem arcStep_skip (s : List Vertex) (i : ℕ)
    (h0 : (s.getD ((i + s.length - 1) % s.length) default).sweep = 0)
    (h1 : (s.getD i default).sweep = 0) : arcStep s i = [] := by
  simp only [arcStep]
  rw [if_neg (fun h => h.elim (fun hc => hc h0) (fun hc => hc h1))]

theorem c1_arcStep_0 : arcStep c1sL 0 = [] :=
  arcStep_skip c1sL 0 (by decide) (by decide)

theorem c1_arcStep_1 : arcStep c1sL 1 = [] := by
  simp only [arcStep]
  rw [if_pos (Or.inr (by decide : (c1sL.getD 1 default).sweep ≠ 0))]
  rw [if_neg]
  rw [c1_arcDelta_1]
  rintro (h | h)
  · exact not_isclose_pi_zero h
  · exact not_isclose_pi_tau h

theorem c1_arcStep_2 : arcStep c1sL 2 = [Msg.arcCusp 1 0] := by
  simp only [arcStep]
  rw [if_pos (Or.inl (by decide :
    (c1sL.getD ((2 + c1sL.length - 1) % c1sL.length) default).sweep ≠ 0))]
  rw [if_pos (Or.inl (by rw [c1_arcDelta_2]; exact isclose_zero_zero))]
  decide

theorem c1_checkArc : checkArcAngle [c1shape] = [Msg.arcCusp 1 0] := by
  have hdrop : c1outline.drop 1 = c1sL := rfl
  simp only [checkArcAngle, c1shape, Shape.outline, Shape.cutouts, List.flatMap_cons,
    List.flatMap_nil, List.headI, List.tail, List.append_nil, arcSubMsgs, hdrop]
  rw [if_pos (by decide : 2 < c1sL.length)]
  rw [show (c1sL.length = 3) from rfl]
  simp [List.range_succ, c1_arcStep_0, c1_arcStep_1, c1_arcStep_2]

theorem c8_checkArc : checkArcAngle [c8shape] = [] := rfl

theorem c8_arcSub4 : arcSubMsgs c8outline4 = [] := by
  have hdrop : c8outline4.drop 1 = c8outline := rfl
  simp only [arcSubMsgs, hdrop]
  rw [if_pos (by decide : 2 < c8outline.length)]
  rw [show (c8outline.length = 3) from rfl]
  have h0 := arcStep_skip c8outline 0 (by decide) (by decide)
  have h1 := arcStep_skip c8outline 1 (by decide) (by decide)
  have h2 := arcStep_skip c8outline 2 (by decide) (by decide)
  simp [List.range_succ, h0, h1, h2]

/-- Claim C1, counterexample: on the subshape whose scanned list is
`(0,0)` sweep 0, `(1,0)` sweep 360, `(2,0)` sweep 0, the check fires at
loop index `i = 2` (`phi0` = 360, the sweep attached to vertex
`i-1 = 1`; `phi1` = 0, the sweep attached to vertex `i = 2`), and the
single diagnostic carries the coordinates `(1,0)` of vertex `i-1`, not
the coordinates `(2,0)` of vertex `i` as the claim states. -/
theorem C1_counterexample :
    arcStep c1sL 2 = [Msg.arcCusp 1 0]
      ∧ checkArcAngle [c1shape] = [Msg.arcCusp 1 0]
      ∧ (c1sL.getD 1 default).x = 1 ∧ (c1sL.getD 1 default).y = 0
      ∧ (c1sL.getD 2 default).x = 2 ∧ (c1sL.getD 2 default).y = 0
      ∧ Msg.arcCusp 1 0 ≠ Msg.arcCusp 2 0 :=
  ⟨c1_arcStep_2, c1_checkArc, by decide, by decide, by decide, by decide, by decide⟩

/-- Claim C1, amended: `phi0` is the sweep field attached to vertex
`i-1` and `phi1` the one attached to vertex `i` (a message requires one
of them nonzero), and a within-tolerance delta emits the diagnostic
using the coordinates of vertex `i-1` — the shared vertex — rather than
vertex `i`. -/
theorem C1_amended_arc_message :
    ∀ (s : List Vertex) (i : ℕ) (m : Msg), m ∈ arcStep s i →
      m = Msg.arcCusp (s.getD ((i + s.length - 1) % s.length) default).x
            (s.getD ((i + s.length - 1) % s.length) default).y
        ∧ ((s.getD ((i + s.length - 1) % s.length) default).sweep ≠ 0
          ∨ (s.getD i default).sweep ≠ 0) := by
  intro s i m hm
  simp only [arcStep] at hm
  by_cases h1 : ((s.getD ((i + s.length - 1) % s.length) default).sweep ≠ 0
      ∨ (s.getD i default).sweep ≠ 0)
  · rw [if_pos h1] at hm
    by_cases h2 : isclose (arcDelta s i) 0 (1 / 100) (1 / 100)
        ∨ isclose (arcDelta s i) tauR (1 / 100) (1 / 100)
    · rw [if_pos h2] at hm
      exact ⟨List.mem_singleton.mp hm, h1⟩
    · rw [if_neg h2] at hm
      exact absurd hm (List.not_mem_nil m)
  · rw [if_neg h1] at hm
    exact absurd hm (List.not_mem_nil m)

/-- Claim C1, amended, witnessed at the firing iteration of the
counterexample subshape. -/
theorem C1_amended_arc_message_witness :
    Msg.arcCusp 1 0
        = Msg.arcCusp (c1sL.getD ((2 + c1sL.length - 1) % c1sL.length) default).x
            (c1sL.getD ((2 + c1sL.length - 1) % c1sL.length) default).y
      ∧ ((c1sL.getD ((2 + c1sL.length - 1) % c1sL.length) default).sweep ≠ 0
        ∨ (c1sL.getD 2 default).sweep ≠ 0) :=
  C1_amended_arc_message c1sL 2 (Msg.arcCusp 1 0)
    (c1_arcStep_2 ▸ List.mem_singleton.mpr rfl)

/-- Claim C8: a vertex both of whose adjacent sweep fields are zero is
skipped by the arc check, and the colinear sub-shape
`(0,0)→(1,0)→(2,0)` with all sweeps zero yields no diagnostic — read
directly as an outline (after the drop only 2 vertices remain, below
the scan threshold) and also when it is the scanned list itself (every
iteration skips). -/
theorem C8_arc_skip :
    (∀ (s : List Vertex) (i : ℕ),
        (s.getD ((i + s.length - 1) % s.length) default).sweep = 0 →
        (s.getD i default).sweep = 0 → arcStep s i = [])
      ∧ checkArcAngle [c8shape] = []
      ∧ arcSubMsgs c8outline4 = [] :=
  ⟨arcStep_skip, c8_checkArc, c8_arcSub4⟩

/-- Claim C8, witnessed at the middle colinear vertex. -/
theorem C8_arc_skip_witness : arcStep c8outline 1 = [] :=
  C8_arc_skip.1 c8outline 1 (by decide) (by decide)



/-! Per-check message-kind lemmas: no check of the battery other than
the library check produces a library-kind message. -/

theorem checkHeightAux_no_lib (u : Line) :
    ∀ (ss : List Shape) (flag : Bool) (ms : List Msg) (m : Msg),
      checkHeightAux u ss flag = .ok ms → m ∈ ms → isLibMsg m = false := by
  intro ss
  induction ss with
  | nil =>
    intro flag ms m hms hm
    rw [checkHeightAux] at hms
    cases hms
    split at hm
    · rw [List.mem_singleton.mp hm]; rfl
    · exact absurd hm (List.not_mem_nil m)
  | cons s t ih =>
    intro flag ms m hms hm
    rw [checkHeightAux] at hms
    split at hms
    · cases hstr : shapeStr s with
      | error e => rw [hstr] at hms; simp [Bind.bind, Except.bind] at hms
      | ok sid =>
        rw [hstr] at hms
        cases hrest : checkHeightAux u t (flag || heightBad u s) with
        | error e => rw [hrest] at hms; simp [Bind.bind, Except.bind] at hms
        | ok rest =>
          rw [hrest] at hms
          simp only [Bind.bind, Except.bind] at hms
          cases hms
          rcases List.mem_cons.mp hm with rfl | h
          · rfl
          · exact ih _ rest m hrest h
    · exact ih _ ms m hms hm

theorem negShapeAux_no_lib :
    ∀ (ss : List Shape) (ms : List Msg) (m : Msg),
      negShapeAux ss = .ok ms → m ∈ ms → isLibMsg m = false := by
  intro ss
  induction ss with
  | nil =>
    intro ms m hms hm
    rw [negShapeAux] at hms
    cases hms
    exact absurd hm (List.not_mem_nil m)
  | cons s t ih =>
    intro ms m hms hm
    rw [negShapeAux] at hms
    split at hms
    · cases hstr : shapeStr s with
      | error e => rw [hstr] at hms; simp [Bind.bind, Except.bind] at hms
      | ok sid =>
        rw [hstr] at hms
        cases hrest : negShapeAux t with
        | error e => rw [hrest] at hms; simp [Bind.bind, Except.bind] at hms
        | ok rest =>
          rw [hrest] at hms
          simp only [Bind.bind, Except.bind] at hms
          cases hms
          rcases List.mem_cons.mp hm with rfl | h
          · rfl
          · exact ih rest m hrest h
    · exact ih ms m hms hm

theorem checkNegErrors_no_lib (b : Board) (ms : List Msg) (m : Msg) :
    checkNegErrors b = .ok ms → m ∈ ms → isLibMsg m = false := by
  intro hms hm
  rw [checkNegErrors] at hms
  cases hsm : negShapeAux b.shapes with
  | error e => rw [hsm] at hms; simp [Bind.bind, Except.bind] at hms
  | ok sm =>
    rw [hsm] at hms
    simp only [Bind.bind, Except.bind] at hms
    cases hms
    rcases List.mem_append.mp hm with h | h
    · rcases List.mem_append.mp h with h2 | h2
      · exact negShapeAux_no_lib b.shapes sm m hsm h2
      · obtain ⟨p, _, rfl⟩ := List.mem_map.mp h2; rfl
    · obtain ⟨d, _, rfl⟩ := List.mem_map.mp h; rfl

theorem closedSub_no_lib (sh : Shape) (s : List Vertex) (ms : List Msg) (m : Msg) :
    closedSub sh s = .ok ms → m ∈ ms → isLibMsg m = false := by
  intro hms hm
  rw [closedSub] at hms
  split at hms
  · cases hstr : shapeStr sh with
    | error e => rw [hstr] at hms; simp [Bind.bind, Except.bind] at hms
    | ok sid =>
      rw [hstr] at hms
      simp only [Bind.bind, Except.bind] at hms
      cases hms
      split at hm
      · rw [List.mem_singleton.mp hm]; rfl
      · rw [List.mem_singleton.mp hm]; rfl
  · split at hms
    · cases hstr : shapeStr sh with
      | error e => rw [hstr] at hms; simp [Bind.bind, Except.bind] at hms
      | ok sid =>
        rw [hstr] at hms
        simp only [Bind.bind, Except.bind] at hms
        cases hms
        rw [List.mem_singleton.mp hm]; rfl
    · cases hms
      exact absurd hm (List.not_mem_nil m)

theorem closedSubsAux_no_lib (sh : Shape) :
    ∀ (subs : List (List Vertex)) (ms : List Msg) (m : Msg),
      closedSubsAux sh subs = .ok ms → m ∈ ms → isLibMsg m = false := by
  intro subs
  induction subs with
  | nil =>
    intro ms m hms hm
    rw [closedSubsAux] at hms
    cases hms
    exact absurd hm (List.not_mem_nil m)
  | cons s rest ih =>
    intro ms m hms hm
    rw [closedSubsAux] at hms
    cases h1 : closedSub sh s with
    | error e => rw [h1] at hms; simp [Bind.bind, Except.bind] at hms
    | ok m1 =>
      rw [h1] at hms
      cases h2 : closedSubsAux sh rest with
      | error e => rw [h2] at hms; simp [Bind.bind, Except.bind] at hms
      | ok m2 =>
        rw [h2] at hms
        simp only [Bind.bind, Except.bind] at hms
        cases hms
        rcases List.mem_append.mp hm with h | h
        · exact closedSub_no_lib sh s m1 m h1 h
        · exact ih m2 m h2 h

theorem checkClosedErrors_no_lib :
    ∀ (shapes : List Shape) (ms : List Msg) (m : Msg),
      checkClosedErrors shapes = .ok ms → m ∈ ms → isLibMsg m = false := by
  intro shapes
  induction shapes with
  | nil =>
    intro ms m hms hm
    rw [checkClosedErrors] at hms
    cases hms
    exact absurd hm (List.not_mem_nil m)
  | cons sh rest ih =>
    intro ms m hms hm
    rw [checkClosedErrors] at hms
    cases h1 : closedSubsAux sh (sh.outline :: sh.cutouts) with
    | error e => rw [h1] at hms; simp [Bind.bind, Except.bind] at hms
    | ok m1 =>
      rw [h1] at hms
      cases h2 : checkClosedErrors rest with
      | error e => rw [h2] at hms; simp [Bind.bind, Except.bind] at hms
      | ok m2 =>
        rw [h2] at hms
        simp only [Bind.bind, Except.bind] at hms
        cases hms
        rcases List.mem_append.mp hm with h | h
        · exact closedSubsAux_no_lib sh _ m1 m h1 h
        · exact ih m2 m h2 h

theorem roundMsgsAux_no_lib (sh : Shape) :
    ∀ (cs : List (List Vertex)) (ms : List Msg) (m : Msg),
      roundMsgsAux sh cs = .ok ms → m ∈ ms → isLibMsg m = false := by
  intro cs
  induction cs with
  | nil =>
    intro ms m hms hm
    rw [roundMsgsAux] at hms
    cases hms
    exact absurd hm (List.not_mem_nil m)
  | cons c rest ih =>
    intro ms m hms hm
    rw [roundMsgsAux] at hms
    split at hms
    · cases hstr : shapeStr sh with
      | error e => rw [hstr] at hms; simp [Bind.bind, Except.bind] at hms
      | ok sid =>
        rw [hstr] at hms
        cases hrest : roundMsgsAux sh rest with
        | error e => rw [hrest] at hms; simp [Bind.bind, Except.bind] at hms
        | ok ms2 =>
          rw [hrest] at hms
          simp only [Bind.bind, Except.bind] at hms
          cases hms
          rcases List.mem_cons.mp hm with rfl | h
          · rfl
          · exact ih ms2 m hrest h
    · exact ih ms m hms hm

theorem checkRefDesErrors_no_lib :
    ∀ (ps : List Part) (ms : List Msg), checkRefDesErrors ps = .ok ms →
      ∀ m ∈ ms, isLibMsg m = false := by
  intro ps
  induction ps with
  | nil =>
    intro ms hms m hm
    rw [checkRefDesErrors] at hms
    cases hms
    exact absurd hm (List.not_mem_nil m)
  | cons p pt ih =>
    intro ms hms m hm
    rw [checkRefDesErrors] at hms
    cases hrd : p.refDes with
    | nil => rw [hrd] at hms; cases hms
    | cons c cs =>
      rw [hrd] at hms
      cases hrest : checkRefDesErrors pt with
      | error e => rw [hrest] at hms; simp [Bind.bind, Except.bind] at hms
      | ok rest =>
        rw [hrest] at hms
        simp only [Bind.bind, Except.bind] at hms
        cases hms
        rcases List.mem_append.mp hm with h | h
        · split at h
          · rw [List.mem_singleton.mp h]; rfl
          · exact absurd h (List.not_mem_nil m)
        · exact ih rest hrest m h

theorem checkRoundCutout_no_lib (shapes : List Shape) (ms : List Msg) (m : Msg) :
    checkRoundCutout shapes = .ok ms → m ∈ ms → isLibMsg m = false := by
  intro hms hm
  rw [checkRoundCutout] at hms
  split at hms
  · cases hms
    exact absurd hm (List.not_mem_nil m)
  · exact roundMsgsAux_no_lib _ _ ms m hms hm

theorem checkEmpty_no_lib (shapes : List Shape) :
    ∀ m ∈ checkEmpty shapes, isLibMsg m = false := by
  intro m hm
  rw [checkEmpty] at hm
  split at hm
  · rw [List.mem_singleton.mp hm]; rfl
  · exact absurd hm (List.not_mem_nil m)

theorem arcStep_no_lib (s : List Vertex) (i : ℕ) :
    ∀ m ∈ arcStep s i, isLibMsg m = false := by
  intro m hm
  simp only [arcStep] at hm
  split at hm
  · split at hm
    · rw [List.mem_singleton.mp hm]; rfl
    · exact absurd hm (List.not_mem_nil m)
  · exact absurd hm (List.not_mem_nil m)

theorem checkArcAngle_no_lib (shapes : List Shape) :
    ∀ m ∈ checkArcAngle shapes, isLibMsg m = false := by
  intro m hm
  rw [checkArcAngle] at hm
  obtain ⟨sh, _, hmem⟩ := List.mem_flatMap.mp hm
  obtain ⟨sub, _, hmem2⟩ := List.mem_flatMap.mp hmem
  rw [arcSubMsgs] at hmem2
  split at hmem2
  · obtain ⟨i, _, hmem3⟩ := List.mem_flatMap.mp hmem2
    exact arcStep_no_lib _ i m hmem3
  · exact absurd hmem2 (List.not_mem_nil m)



/-- Claim C9: an empty part-name membership list fails the Python
truthiness guard exactly like an absent one, so the whole library check
is skipped: validation with the empty list is the same function as the
battery without a library step, and that battery never emits any
library-kind diagnostic (not-in-library, invalid-characters, or the
CircuitWorks summary) for any part — any library-kind message on the
validated board was already there before validation. -/
theorem C9_empty_library_skip :
    (∀ b : Board, checkAllErrors b [] = checkAllErrorsNoLib b)
      ∧ (∀ (b b2 : Board), checkAllErrorsNoLib b = .ok b2 →
          ∀ m ∈ b2.errors, isLibMsg m = true → m ∈ b.errors) := by
  constructor
  · intro b
    rw [checkAllErrors, checkAllErrorsNoLib]
    cases h1 : checkHeightErrors b.units b.shapes with
    | error e => simp [Bind.bind, Except.bind]
    | ok m1 =>
      cases h2 : checkNegErrors b with
      | error e => simp [Bind.bind, Except.bind]
      | ok m2 =>
        cases h3 : checkClosedErrors b.shapes with
        | error e => simp [Bind.bind, Except.bind]
        | ok m3 =>
          cases h4 : checkRefDesErrors b.parts with
          | error e => simp [h4, Bind.bind, Except.bind]
          | ok m4 =>
            cases h5 : checkRoundCutout b.shapes with
            | error e => simp [h4, h5, Bind.bind, Except.bind]
            | ok m5 => simp [h4, h5, Bind.bind, Except.bind]
  · intro b b2 h m hm hlib
    unfold checkAllErrorsNoLib at h
    cases h1 : checkHeightErrors b.units b.shapes with
    | error e => rw [h1] at h; simp [Bind.bind, Except.bind] at h
    | ok m1 =>
      rw [h1] at h
      cases h2 : checkNegErrors b with
      | error e => rw [h2] at h; simp [Bind.bind, Except.bind] at h
      | ok m2 =>
        rw [h2] at h
        cases h3 : checkClosedErrors b.shapes with
        | error e => rw [h3] at h; simp [Bind.bind, Except.bind] at h
        | ok m3 =>
          rw [h3] at h
          cases h4 : checkRefDesErrors b.parts with
          | error e => rw [h4] at h; simp [Bind.bind, Except.bind] at h
          | ok m4 =>
            rw [h4] at h
            cases h5 : checkRoundCutout b.shapes with
            | error e => rw [h5] at h; simp [Bind.bind, Except.bind] at h
            | ok m5 =>
              rw [h5] at h
              simp only [Bind.bind, Except.bind] at h
              cases h
              simp only [List.mem_append] at hm
              rcases hm with ((((((hm | hm) | hm) | hm) | hm) | hm) | hm) | hm
              · exact hm
              · rw [checkHeightErrors] at h1
                simp [checkHeightAux_no_lib b.units b.shapes false m1 m h1 hm] at hlib
              · simp [checkNegErrors_no_lib b m2 m h2 hm] at hlib
              · simp [checkClosedErrors_no_lib b.shapes m3 m h3 hm] at hlib
              · simp [checkRefDesErrors_no_lib b.parts m4 h4 m hm] at hlib
              · simp [checkRoundCutout_no_lib b.shapes m5 m h5 hm] at hlib
              · simp [checkEmpty_no_lib b.shapes m hm] at hlib
              · simp [checkArcAngle_no_lib b.shapes m hm] at hlib

/-- Claim C9, witnessed on a concrete board whose pre-validation error
list already holds the only library-kind message present afterwards. -/
theorem C9_empty_library_skip_witness :
    checkAllErrors c9board [] = checkAllErrorsNoLib c9board
      ∧ Msg.circuitWorks ∈ c9board.errors :=
  ⟨C9_empty_library_skip.1 c9board,
   C9_empty_library_skip.2 c9board c9after rfl Msg.circuitWorks (by decide) (by decide)⟩


end IDF
